import Mathlib

/-!
Verification of the Smart Parking Management System core
(`Smart_Parking_Management_System.py`): slot registry, allocation engine
(`find_available_slot`), billing engine (`calculate_fee`) and the entry/exit
orchestration (`vehicle_entry` / `vehicle_exit`).

The Python global `parking_lot` dict is embedded as an insertion-ordered
association list from slot id to occupancy record; timestamps are integer
seconds; Python float floor division `//` on integer-second durations is
`Int.fdiv`.  The byte-position-based `String` library functions do not reduce
in the kernel, so the few string operations the source uses (`upper`,
`startswith`, indexing the first character) are defined over the underlying
character lists.
-/

/-- ASCII upper-casing of one character, as Python `str.upper` acts on the
ASCII identifiers this program handles. -/
def charUpper (c : Char) : Char :=
  if 'a' ≤ c ∧ c ≤ 'z' then Char.ofNat (c.toNat - 32) else c

/-- Models Python `s.upper()`. -/
def strUpper (s : String) : String := ⟨s.data.map charUpper⟩

/-- Models Python `s.startswith(pre)`. -/
def strHasPre (pre s : String) : Bool := List.isPrefixOf pre.data s.data

/-- Models Python `s[0].upper()` on the non-empty type names the program uses
(the source would raise `IndexError` on an empty string). -/
def headUpper (s : String) : String := ⟨(s.data.take 1).map charUpper⟩

/-- One occupancy record: the dict stored in `parking_lot[slot_id]` by
`vehicle_entry` (keys `vehicle_no`, `type`, `entry_time`, `is_vip`).  `type`
is a Lean keyword, hence the field name `vtype`. -/
structure Reservation where
  vehicle_no : String
  vtype : String
  entry_time : Int
  is_vip : Bool
deriving DecidableEq

/-- The global `parking_lot` dict: an insertion-ordered association list from
slot id to occupancy (`none` = free slot).  Python dict keys are unique. -/
abbrev Lot := List (String × Option Reservation)

/-- One pricing tier: the per-category dict with keys FIXED_HOURS, FIXED_RATE
and PER_HOUR. -/
structure Tier where
  fixed_hours : Int
  fixed_rate : Int
  per_hour : Int
deriving DecidableEq

/-- The `PRICING` table. -/
def PRICING (c : String) : Option Tier :=
  if c = "BIKE" then some ⟨2, 5, 2⟩
  else if c = "CAR" then some ⟨2, 10, 5⟩
  else if c = "EV" then some ⟨2, 12, 6⟩
  else if c = "HEAVY" then some ⟨1, 15, 8⟩
  else if c = "VIP" then some ⟨3, 15, 4⟩
  else none

/-- Models the dict lookup PRICING.get of the vehicle type, defaulting to
the CAR tier. -/
def pricingGet (c : String) : Tier := (PRICING c).getD ⟨2, 10, 5⟩

/-- The `MAX_SLOTS` capacity table. -/
def MAX_SLOTS (c : String) : Nat :=
  if c = "BIKE" then 20
  else if c = "CAR" then 30
  else if c = "EV" then 10
  else if c = "HEAVY" then 5
  else if c = "VIP" then 5
  else 0

/-- Models `generate_slot_id` (the f-string zero-pads the index to two
digits; all indices used stay below 100). -/
def generate_slot_id (vehicle_type : String) (index : Nat) : String :=
  let pre :=
    if vehicle_type = "EV" then "E"
    else if vehicle_type = "HEAVY" then "H"
    else if vehicle_type = "VIP" then "V"
    else headUpper vehicle_type
  pre ++ "-" ++ (if index < 10 then "0" ++ toString index else toString index)

/-- The slot ids created for one category, indices 1 .. capacity. -/
def slotIdsFor (t : String) : List String :=
  (List.range (MAX_SLOTS t)).map (fun i => generate_slot_id t (i + 1))

/-- Models `initialize_parking_lot` before its final shuffle: VIP slots first,
then BIKE, CAR, EV, HEAVY, every slot empty.  The shuffle is modelled as an
arbitrary permutation at the start of `Reachable`. -/
def initLot : Lot :=
  (slotIdsFor "VIP" ++ slotIdsFor "BIKE" ++ slotIdsFor "CAR"
      ++ slotIdsFor "EV" ++ slotIdsFor "HEAVY").map (fun sid => (sid, none))

/-- Models `calculate_fee`; returns `(fee, total_hours)`. -/
def calculate_fee (entry_time exit_time : Int) (vehicle_type : String) : Int × Int :=
  let total_seconds := exit_time - entry_time
  let total_hours := max 1 ((total_seconds + 3599).fdiv 3600)
  let scheme := pricingGet vehicle_type
  let fee :=
    if total_hours ≤ scheme.fixed_hours then scheme.fixed_rate
    else scheme.fixed_rate + (total_hours - scheme.fixed_hours) * scheme.per_hour
  (fee, total_hours)

/-- Result of `find_available_slot`: a slot id with its allocated type, no slot
(`return None, None`), or the `AttributeError` raised inside the spillover
branch (see `find_available_slot`). -/
inductive FindResult where
  | found (slot_id : String) (allocated_type : String)
  | noSlot
  | attrError
deriving DecidableEq

/-- Models the chained lookup parking_lot.get(slot_id, empty-dict).get(type,
default) applied to the stored value of the slot: a reservation dict yields
its type entry, while calling .get on None raises AttributeError, modelled
as `none`. -/
def optGet (status : Option Reservation) (_d : String) : Option String :=
  match status with
  | some r => some r.vtype
  | none => none

/-- Models `find_available_slot`.  Rule 1: a VIP vehicle takes the first free
`V-` slot.  Rule 2: first free slot of the letter of the requested type.
Rule 3 (CAR/EV spillover): on the first free `C-` or `V-` slot the source
evaluates the chained lookup modelled by `optGet`; the stored value of that
slot is None by the loop guard, so this raises AttributeError. -/
def find_available_slot (lot : Lot) (vehicle_type : String) (is_vip : Bool) : FindResult :=
  match (if is_vip then lot.find? (fun p => strHasPre "V-" p.1 && p.2.isNone) else none) with
  | some p => FindResult.found p.1 "VIP"
  | none =>
    let tp :=
      if vehicle_type = "EV" then "E"
      else if vehicle_type = "HEAVY" then "H"
      else headUpper vehicle_type
    match lot.find? (fun p => strHasPre (tp ++ "-") p.1 && p.2.isNone) with
    | some p => FindResult.found p.1 vehicle_type
    | none =>
      if vehicle_type = "CAR" ∨ vehicle_type = "EV" then
        match lot.find? (fun p => (strHasPre "C-" p.1 || strHasPre "V-" p.1) && p.2.isNone) with
        | some p =>
          match optGet p.2 vehicle_type with
          | some ty => FindResult.found p.1 ty
          | none => FindResult.attrError
        | none => FindResult.noSlot
      else FindResult.noSlot

/-- Models the scan over parking_lot.items() that compares each non-None
info entry against the vehicle number, shared by `vehicle_entry` (duplicate
check) and `vehicle_exit` (lookup): first occupied slot holding `vn`. -/
def find_by_vehicle (lot : Lot) (vn : String) : Option (String × Reservation) :=
  match lot with
  | [] => none
  | (sid, st) :: rest =>
    match st with
    | some r => if r.vehicle_no = vn then some (sid, r) else find_by_vehicle rest vn
    | none => find_by_vehicle rest vn

/-- Dict assignment `parking_lot[slot_id] = st` (slot ids are unique keys). -/
def setSlot (lot : Lot) (sid : String) (st : Option Reservation) : Lot :=
  lot.map (fun p => if p.1 = sid then (p.1, st) else p)

/-- Outcome of `vehicle_entry` (the source reports these by printing).
`crashed` is the uncaught `AttributeError` propagating out of the spillover
branch of `find_available_slot`. -/
inductive EntryResult where
  | invalidType
  | duplicate (slot_id : String)
  | success (slot_id : String)
  | lotFull
  | crashed
deriving DecidableEq

/-- Models `vehicle_entry`: upper-case the inputs, validate the type, reject a
vehicle already parked, then allocate and reserve.  The exception raised in
the spillover branch propagates before any state mutation, so the lot is
returned unchanged in the `crashed` case. -/
def vehicle_entry (lot : Lot) (vehicle_no vehicle_type : String) (is_vip : Bool)
    (now : Int) : EntryResult × Lot :=
  let vt := strUpper vehicle_type
  let vn := strUpper vehicle_no
  if vt = "BIKE" ∨ vt = "CAR" ∨ vt = "EV" ∨ vt = "HEAVY" then
    match find_by_vehicle lot vn with
    | some (sid, _) => (EntryResult.duplicate sid, lot)
    | none =>
      match find_available_slot lot vt is_vip with
      | FindResult.found sid _ =>
        (EntryResult.success sid, setSlot lot sid (some ⟨vn, vt, now, is_vip⟩))
      | FindResult.noSlot => (EntryResult.lotFull, lot)
      | FindResult.attrError => (EntryResult.crashed, lot)
  else (EntryResult.invalidType, lot)

/-- One record appended to `revenue_log` by `vehicle_exit`. -/
structure LedgerEntry where
  vehicle_no : String
  vtype : String
  slot_id : String
  entry_time : Int
  exit_time : Int
  duration_hrs : Int
  fee : Int
deriving DecidableEq

/-- Outcome of `vehicle_exit`. -/
inductive ExitResult where
  | notFound
  | receipt (slot_id : String) (vtype : String) (hours fee : Int)
deriving DecidableEq

/-- Models `vehicle_exit`: look the vehicle up, compute the fee from the
stored `entry_time` and stored `type`, append the ledger record, free the
slot. -/
def vehicle_exit (lot : Lot) (log : List LedgerEntry) (vehicle_no : String)
    (now : Int) : ExitResult × Lot × List LedgerEntry :=
  let vn := strUpper vehicle_no
  match find_by_vehicle lot vn with
  | none => (ExitResult.notFound, lot, log)
  | some (sid, info) =>
    let fh := calculate_fee info.entry_time now info.vtype
    (ExitResult.receipt sid info.vtype fh.2 fh.1,
     setSlot lot sid none,
     log ++ [⟨vn, info.vtype, sid, info.entry_time, now, fh.2, fh.1⟩])

/-- One core operation together with the wall-clock time at which it runs. -/
inductive Op where
  | entry (vehicle_no vehicle_type : String) (is_vip : Bool) (now : Int)
  | exit (vehicle_no : String) (now : Int)

/-- Applies one operation to the paired state (registry, ledger). -/
def applyOp (s : Lot × List LedgerEntry) : Op → Lot × List LedgerEntry
  | Op.entry vn vt vip now => ((vehicle_entry s.1 vn vt vip now).2, s.2)
  | Op.exit vn now =>
    let r := vehicle_exit s.1 s.2 vn now
    (r.2.1, r.2.2)

/-- States reachable from a freshly initialized lot (any shuffle of the slots
built by `initialize_parking_lot`, empty ledger) by entry/exit operations. -/
inductive Reachable : Lot × List LedgerEntry → Prop
  | init (l : Lot) (h : l.Perm initLot) : Reachable (l, [])
  | step (s : Lot × List LedgerEntry) (op : Op) (h : Reachable s) : Reachable (applyOp s op)

/-- The vehicle numbers currently stored in the registry, in slot order. -/
def occupants (lot : Lot) : List String :=
  lot.filterMap (fun p => p.2.map (fun r => r.vehicle_no))

/-- Slot ids are pairwise distinct (a Python dict cannot have duplicate keys). -/
def KeysNodup (lot : Lot) : Prop := (lot.map Prod.fst).Nodup

/-- Every stored reservation has a type among the four requestable types. -/
def TypesValid (lot : Lot) : Prop :=
  ∀ p ∈ lot, ∀ r : Reservation, p.2 = some r →
    r.vtype = "BIKE" ∨ r.vtype = "CAR" ∨ r.vtype = "EV" ∨ r.vtype = "HEAVY"

/-- The registry invariant carried through every reachable state. -/
def LotInv (lot : Lot) : Prop :=
  KeysNodup lot ∧ (occupants lot).Nodup ∧ TypesValid lot

/-! ### Facts about the pricing table -/

lemma pricingGet_mem (t : String) :
    pricingGet t = ⟨2, 5, 2⟩ ∨ pricingGet t = ⟨2, 10, 5⟩ ∨ pricingGet t = ⟨2, 12, 6⟩ ∨
      pricingGet t = ⟨1, 15, 8⟩ ∨ pricingGet t = ⟨3, 15, 4⟩ := by
  unfold pricingGet PRICING
  split_ifs <;> simp

lemma pricingGet_fixed_hours_pos (t : String) : 1 ≤ (pricingGet t).fixed_hours := by
  rcases pricingGet_mem t with h | h | h | h | h <;> rw [h] <;> decide

lemma pricingGet_per_hour_nonneg (t : String) : 0 ≤ (pricingGet t).per_hour := by
  rcases pricingGet_mem t with h | h | h | h | h <;> rw [h] <;> decide

/-! ### Billing engine -/

/-- C2, counterexample: a call with exit_time 0 strictly before entry_time
3600 does not fail — `calculate_fee` contains no time-range check and returns
the CAR fee 10 with 1 billed hour. -/
theorem C2_counterexample :
    (0 : Int) < 3600 ∧ calculate_fee 3600 0 "CAR" = (10, 1) := by decide

/-- C2, amended: `calculate_fee` performs no time-range validation; when
exit_time precedes entry_time it still returns a result, namely the minimum
charge of 1 billed hour at the fixed rate of the category tier. -/
theorem C2_no_time_validation (e x : Int) (t : String) (h : x < e) :
    calculate_fee e x t = ((pricingGet t).fixed_rate, 1) := by
  have hf := pricingGet_fixed_hours_pos t
  have hh : (x - e + 3599).fdiv 3600 ≤ 0 := by
    rw [Int.fdiv_eq_ediv _ (by norm_num)]; omega
  simp only [calculate_fee]
  have hmax : max 1 ((x - e + 3599).fdiv 3600) = 1 := by omega
  rw [hmax, if_pos hf]

theorem C2_witness : (0 : Int) < 7200 ∧ calculate_fee 7200 0 "BIKE" = (5, 1) :=
  ⟨by decide, C2_no_time_validation 7200 0 "BIKE" (by decide)⟩

/-- C3: for every non-negative elapsed duration the billed hours equal
ceiling(elapsed/3600) floored at a minimum of 1; any positive duration under
3600 s bills exactly 1 hour, and a zero duration also bills exactly 1 hour. -/
theorem C3_billed_hours_ceiling (e x : Int) (t : String) (h : 0 ≤ x - e) :
    (calculate_fee e x t).2 = max 1 ⌈((x - e : Int) : ℚ) / ((3600 : Nat) : ℚ)⌉ ∧
    (0 < x - e → x - e < 3600 → (calculate_fee e x t).2 = 1) ∧
    (x - e = 0 → (calculate_fee e x t).2 = 1) := by
  have key : ∀ s : Int, max 1 ((s + 3599).fdiv 3600) = max 1 ⌈((s : Int) : ℚ) / ((3600 : Nat) : ℚ)⌉ := by
    intro s
    rw [Int.fdiv_eq_ediv _ (by norm_num)]
    have h1 : ⌈((s : Int) : ℚ) / ((3600 : Nat) : ℚ)⌉ = -⌊-(((s : Int) : ℚ) / ((3600 : Nat) : ℚ))⌋ := by
      rw [Int.floor_neg]; ring
    rw [h1,
      show -(((s : Int) : ℚ) / ((3600 : Nat) : ℚ)) = ((-s : Int) : ℚ) / ((3600 : Nat) : ℚ) by
        push_cast; ring,
      Rat.floor_intCast_div_natCast]
    have h2 : ((3600 : Nat) : Int) = 3600 := by norm_num
    rw [h2]
    omega
  refine ⟨?_, ?_, ?_⟩
  · simp only [calculate_fee]
    exact key (x - e)
  · intro h1 h2
    simp only [calculate_fee]
    rw [Int.fdiv_eq_ediv _ (by norm_num)]
    omega
  · intro h1
    simp only [calculate_fee]
    rw [Int.fdiv_eq_ediv _ (by norm_num)]
    omega

theorem C3_witness :
    (calculate_fee 0 5 "CAR").2 = max 1 ⌈((5 - 0 : Int) : ℚ) / ((3600 : Nat) : ℚ)⌉ ∧
    (calculate_fee 0 5 "CAR").2 = 1 ∧
    (calculate_fee 0 0 "CAR").2 = 1 :=
  ⟨(C3_billed_hours_ceiling 0 5 "CAR" (by decide)).1,
   (C3_billed_hours_ceiling 0 5 "CAR" (by decide)).2.1 (by decide) (by decide),
   (C3_billed_hours_ceiling 0 0 "CAR" (by decide)).2.2 (by decide)⟩

/-- C4: the fee is the fixed rate of the tier up to fixed_hours billed hours and
fixed_rate + (billed − fixed_hours) × per_hour beyond; a duration of exactly
fixed_hours × 3600 seconds bills fixed_rate with fixed_hours billed, and one
second more bills fixed_rate + per_hour. -/
theorem C4_fee_formula (e x : Int) (t : String) :
    (0 ≤ x - e →
      (calculate_fee e x t).1 =
        if (calculate_fee e x t).2 ≤ (pricingGet t).fixed_hours then (pricingGet t).fixed_rate
        else (pricingGet t).fixed_rate
          + ((calculate_fee e x t).2 - (pricingGet t).fixed_hours) * (pricingGet t).per_hour) ∧
    (x - e = (pricingGet t).fixed_hours * 3600 →
      calculate_fee e x t = ((pricingGet t).fixed_rate, (pricingGet t).fixed_hours)) ∧
    (x - e = (pricingGet t).fixed_hours * 3600 + 1 →
      calculate_fee e x t =
        ((pricingGet t).fixed_rate + (pricingGet t).per_hour, (pricingGet t).fixed_hours + 1)) := by
  have hf := pricingGet_fixed_hours_pos t
  refine ⟨fun _ => by simp only [calculate_fee], fun hs => ?_, fun hs => ?_⟩
  · have hh : (x - e + 3599).fdiv 3600 = (pricingGet t).fixed_hours := by
      rw [Int.fdiv_eq_ediv _ (by norm_num)]; omega
    have hmax : max 1 ((x - e + 3599).fdiv 3600) = (pricingGet t).fixed_hours := by omega
    simp only [calculate_fee, hmax, le_refl, if_pos]
  · have hh : (x - e + 3599).fdiv 3600 = (pricingGet t).fixed_hours + 1 := by
      rw [Int.fdiv_eq_ediv _ (by norm_num)]; omega
    have hmax : max 1 ((x - e + 3599).fdiv 3600) = (pricingGet t).fixed_hours + 1 := by omega
    simp only [calculate_fee, hmax]
    rw [if_neg (by omega)]
    ring_nf

theorem C4_witness :
    ((calculate_fee 0 7200 "CAR").1 =
      if (calculate_fee 0 7200 "CAR").2 ≤ (pricingGet "CAR").fixed_hours
      then (pricingGet "CAR").fixed_rate
      else (pricingGet "CAR").fixed_rate
        + ((calculate_fee 0 7200 "CAR").2 - (pricingGet "CAR").fixed_hours)
          * (pricingGet "CAR").per_hour) ∧
    calculate_fee 0 7200 "CAR" = (10, 2) ∧
    calculate_fee 0 7201 "CAR" = (15, 3) :=
  ⟨(C4_fee_formula 0 7200 "CAR").1 (by decide),
   (C4_fee_formula 0 7200 "CAR").2.1 (by decide),
   (C4_fee_formula 0 7201 "CAR").2.2 (by decide)⟩

/-- C6: for a fixed category the fee is monotonically non-decreasing in the
duration. -/
theorem C6_fee_monotone (t : String) (d1 d2 : Int) (h0 : 0 ≤ d1) (h12 : d1 ≤ d2) :
    (calculate_fee 0 d1 t).1 ≤ (calculate_fee 0 d2 t).1 := by
  have hp := pricingGet_per_hour_nonneg t
  simp only [calculate_fee]
  have hh : max 1 ((d1 - 0 + 3599).fdiv 3600) ≤ max 1 ((d2 - 0 + 3599).fdiv 3600) := by
    rw [Int.fdiv_eq_ediv _ (by norm_num), Int.fdiv_eq_ediv _ (by norm_num)]
    omega
  generalize hA : max 1 ((d1 - 0 + 3599).fdiv 3600) = h1 at hh
  generalize hB : max 1 ((d2 - 0 + 3599).fdiv 3600) = h2 at hh
  split_ifs with a b b
  · exact le_refl _
  · have : 0 ≤ (h2 - (pricingGet t).fixed_hours) * (pricingGet t).per_hour :=
      mul_nonneg (by omega) hp
    linarith
  · exact absurd (hh.trans b) a
  · have : (h1 - (pricingGet t).fixed_hours) * (pricingGet t).per_hour
        ≤ (h2 - (pricingGet t).fixed_hours) * (pricingGet t).per_hour :=
      mul_le_mul_of_nonneg_right (by omega) hp
    linarith

theorem C6_witness : (0 : Int) ≤ 100 ∧ (100 : Int) ≤ 9999 ∧
    (calculate_fee 0 100 "EV").1 ≤ (calculate_fee 0 9999 "EV").1 :=
  ⟨by decide, by decide, C6_fee_monotone "EV" 100 9999 (by decide) (by decide)⟩

/-! ### Allocation engine -/

/-- C5: an `is_vip` allocation made while at least one VIP (`V-`) slot is
free always returns a VIP slot with allocated type VIP, never a standard
slot of the requested type. -/
theorem C5_vip_priority (lot : Lot) (vt : String)
    (h : ∃ p ∈ lot, strHasPre "V-" p.1 = true ∧ p.2 = none) :
    ∃ sid, find_available_slot lot vt true = FindResult.found sid "VIP" ∧
      strHasPre "V-" sid = true := by
  have hsome : (lot.find? (fun p => strHasPre "V-" p.1 && p.2.isNone)).isSome := by
    rw [List.find?_isSome]
    obtain ⟨p, hp, h1, h2⟩ := h
    exact ⟨p, hp, by simp [h1, h2]⟩
  obtain ⟨q, hq⟩ := Option.isSome_iff_exists.mp hsome
  have hpred := List.find?_some hq
  simp only [Bool.and_eq_true] at hpred
  refine ⟨q.1, ?_, hpred.1⟩
  simp [find_available_slot, hq]

theorem C5_witness :
    ∃ sid, find_available_slot [("C-01", none), ("V-01", none)] "CAR" true
        = FindResult.found sid "VIP" ∧ strHasPre "V-" sid = true :=
  C5_vip_priority [("C-01", none), ("V-01", none)] "CAR"
    ⟨("V-01", none), by decide, by decide, rfl⟩

/-- C1, code bug: with capacities CAR:1 and VIP:1 the first non-VIP CAR entry
takes the CAR slot, but the second one reaches the spillover branch of
`find_available_slot`, whose return expression calls .get on the stored
None of the free slot — an uncaught AttributeError — instead of allocating
the free VIP slot and succeeding. -/
theorem C1_spillover_crashes :
    (vehicle_entry [("V-01", none), ("C-01", none)] "AB1" "CAR" false 0).1
        = EntryResult.success "C-01" ∧
    (vehicle_entry (vehicle_entry [("V-01", none), ("C-01", none)] "AB1" "CAR" false 0).2
        "AB2" "CAR" false 1).1 = EntryResult.crashed := by decide

/-! ### Registry lemmas -/

lemma occupants_cons_none (k : String) (tl : Lot) :
    occupants ((k, none) :: tl) = occupants tl := rfl

lemma occupants_cons_some (k : String) (r : Reservation) (tl : Lot) :
    occupants ((k, some r) :: tl) = r.vehicle_no :: occupants tl := rfl

lemma setSlot_cons (k : String) (s0 : Option Reservation) (tl : Lot) (sid : String)
    (st : Option Reservation) :
    setSlot ((k, s0) :: tl) sid st
      = (if k = sid then (k, st) else (k, s0)) :: setSlot tl sid st := rfl

lemma setSlot_map_fst (lot : Lot) (sid : String) (st : Option Reservation) :
    (setSlot lot sid st).map Prod.fst = lot.map Prod.fst := by
  induction lot with
  | nil => rfl
  | cons hd tl ih =>
    obtain ⟨k, s0⟩ := hd
    rw [setSlot_cons]
    by_cases hk : k = sid
    · rw [if_pos hk]
      simpa using ih
    · rw [if_neg hk]
      simpa using ih

lemma setSlot_not_mem (lot : Lot) (sid : String) (st : Option Reservation)
    (h : sid ∉ lot.map Prod.fst) : setSlot lot sid st = lot := by
  induction lot with
  | nil => rfl
  | cons hd tl ih =>
    obtain ⟨k, s0⟩ := hd
    simp only [List.map_cons, List.mem_cons, not_or] at h
    rw [setSlot_cons, if_neg (fun hh => h.1 hh.symm), ih h.2]

lemma mem_occupants_setSlot (lot : Lot) (sid : String) (st : Option Reservation)
    (x : String) (h : x ∈ occupants (setSlot lot sid st)) :
    (∃ r : Reservation, st = some r ∧ x = r.vehicle_no) ∨ x ∈ occupants lot := by
  induction lot with
  | nil => simp [setSlot, occupants] at h
  | cons hd tl ih =>
    obtain ⟨k, s0⟩ := hd
    rw [setSlot_cons] at h
    by_cases hk : k = sid
    · rw [if_pos hk] at h
      cases st with
      | none =>
        rw [occupants_cons_none] at h
        rcases ih h with h' | h'
        · exact Or.inl h'
        · cases s0 with
          | none => exact Or.inr (by rwa [occupants_cons_none])
          | some r0 => exact Or.inr (by rw [occupants_cons_some]; exact List.mem_cons_of_mem _ h')
      | some r =>
        rw [occupants_cons_some] at h
        rcases List.mem_cons.mp h with h' | h'
        · exact Or.inl ⟨r, rfl, h'⟩
        · rcases ih h' with h'' | h''
          · exact Or.inl h''
          · cases s0 with
            | none => exact Or.inr (by rwa [occupants_cons_none])
            | some r0 =>
              exact Or.inr (by rw [occupants_cons_some]; exact List.mem_cons_of_mem _ h'')
    · rw [if_neg hk] at h
      cases s0 with
      | none =>
        rw [occupants_cons_none] at h ⊢
        exact ih h
      | some r0 =>
        rw [occupants_cons_some] at h ⊢
        rcases List.mem_cons.mp h with h' | h'
        · exact Or.inr (by rw [h']; exact List.mem_cons_self _ _)
        · rcases ih h' with h'' | h''
          · exact Or.inl h''
          · exact Or.inr (List.mem_cons_of_mem _ h'')

lemma occupants_setSlot_none_sublist (lot : Lot) (sid : String) :
    (occupants (setSlot lot sid none)).Sublist (occupants lot) := by
  induction lot with
  | nil => simp [setSlot]
  | cons hd tl ih =>
    obtain ⟨k, s0⟩ := hd
    rw [setSlot_cons]
    by_cases hk : k = sid
    · rw [if_pos hk, occupants_cons_none]
      cases s0 with
      | none => rw [occupants_cons_none]; exact ih
      | some r => rw [occupants_cons_some]; exact ih.trans (List.sublist_cons_self _ _)
    · rw [if_neg hk]
      cases s0 with
      | none => rw [occupants_cons_none, occupants_cons_none]; exact ih
      | some r => rw [occupants_cons_some, occupants_cons_some]; exact ih.cons₂ _

lemma occupants_setSlot_some_nodup (lot : Lot) (sid : String) (r : Reservation)
    (hk : (lot.map Prod.fst).Nodup) (ho : (occupants lot).Nodup)
    (hv : r.vehicle_no ∉ occupants lot) :
    (occupants (setSlot lot sid (some r))).Nodup := by
  induction lot with
  | nil => simp [setSlot, occupants]
  | cons hd tl ih =>
    obtain ⟨k, s0⟩ := hd
    rw [List.map_cons, List.nodup_cons] at hk
    rw [setSlot_cons]
    by_cases hkk : k = sid
    · rw [if_pos hkk, occupants_cons_some, setSlot_not_mem tl sid (some r) (hkk ▸ hk.1)]
      refine List.nodup_cons.mpr ⟨?_, ?_⟩
      · intro hmem
        apply hv
        cases s0 with
        | none => rwa [occupants_cons_none]
        | some r0 => rw [occupants_cons_some]; exact List.mem_cons_of_mem _ hmem
      · cases s0 with
        | none => rwa [occupants_cons_none] at ho
        | some r0 => exact (List.nodup_cons.mp (occupants_cons_some k r0 tl ▸ ho)).2
    · rw [if_neg hkk]
      cases s0 with
      | none =>
        rw [occupants_cons_none] at hv ho ⊢
        exact ih hk.2 ho hv
      | some r0 =>
        rw [occupants_cons_some] at hv ho ⊢
        rw [List.nodup_cons] at ho
        refine List.nodup_cons.mpr ⟨?_, ih hk.2 ho.2 (fun hm => hv (List.mem_cons_of_mem _ hm))⟩
        intro hmem
        rcases mem_occupants_setSlot tl sid (some r) _ hmem with ⟨r1, hr1, hx⟩ | hmem'
        · obtain rfl : r = r1 := by injection hr1
          apply hv
          rw [← hx]
          exact List.mem_cons_self _ _
        · exact ho.1 hmem'

lemma find_by_vehicle_eq_none (lot : Lot) (v : String) :
    find_by_vehicle lot v = none ↔ v ∉ occupants lot := by
  induction lot with
  | nil => simp [find_by_vehicle, occupants]
  | cons hd tl ih =>
    obtain ⟨k, st⟩ := hd
    cases st with
    | none =>
      rw [occupants_cons_none]
      simpa only [find_by_vehicle] using ih
    | some r =>
      rw [occupants_cons_some]
      simp only [find_by_vehicle, List.mem_cons]
      by_cases hv : r.vehicle_no = v
      · simp [hv]
      · simp only [if_neg hv]
        rw [ih]
        constructor
        · intro hn hor
          rcases hor with hor | hor
          · exact hv hor.symm
          · exact hn hor
        · intro hn hm
          exact hn (Or.inr hm)

lemma find_by_vehicle_some (lot : Lot) (v sid : String) (r : Reservation)
    (h : find_by_vehicle lot v = some (sid, r)) :
    (sid, some r) ∈ lot ∧ r.vehicle_no = v := by
  induction lot with
  | nil => simp [find_by_vehicle] at h
  | cons hd tl ih =>
    obtain ⟨k, st⟩ := hd
    cases st with
    | none =>
      simp only [find_by_vehicle] at h
      exact ⟨List.mem_cons_of_mem _ (ih h).1, (ih h).2⟩
    | some r0 =>
      simp only [find_by_vehicle] at h
      by_cases hv : r0.vehicle_no = v
      · rw [if_pos hv] at h
        obtain ⟨hk, hr⟩ : k = sid ∧ r0 = r := by
          have := Option.some.inj h
          exact ⟨congrArg Prod.fst this, congrArg Prod.snd this⟩
        subst hk
        subst hr
        exact ⟨List.mem_cons_self _ _, hv⟩
      · rw [if_neg hv] at h
        exact ⟨List.mem_cons_of_mem _ (ih h).1, (ih h).2⟩

lemma TypesValid_setSlot (lot : Lot) (sid : String) (st : Option Reservation)
    (h : TypesValid lot)
    (hst : ∀ r : Reservation, st = some r →
      r.vtype = "BIKE" ∨ r.vtype = "CAR" ∨ r.vtype = "EV" ∨ r.vtype = "HEAVY") :
    TypesValid (setSlot lot sid st) := by
  intro p hp r hr
  simp only [setSlot, List.mem_map] at hp
  obtain ⟨q, hq, rfl⟩ := hp
  by_cases hk : q.1 = sid
  · rw [if_pos hk] at hr
    exact hst r hr
  · rw [if_neg hk] at hr
    exact h q hq r hr

/-! ### Invariant preservation -/

lemma vehicle_entry_eq (lot : Lot) (vn vt : String) (vip : Bool) (now : Int) :
    vehicle_entry lot vn vt vip now =
      if strUpper vt = "BIKE" ∨ strUpper vt = "CAR" ∨ strUpper vt = "EV" ∨ strUpper vt = "HEAVY" then
        match find_by_vehicle lot (strUpper vn) with
        | some (sid, _) => (EntryResult.duplicate sid, lot)
        | none =>
          match find_available_slot lot (strUpper vt) vip with
          | FindResult.found sid _ =>
            (EntryResult.success sid,
             setSlot lot sid (some ⟨strUpper vn, strUpper vt, now, vip⟩))
          | FindResult.noSlot => (EntryResult.lotFull, lot)
          | FindResult.attrError => (EntryResult.crashed, lot)
      else (EntryResult.invalidType, lot) := rfl

lemma vehicle_exit_eq (lot : Lot) (log : List LedgerEntry) (vn : String) (now : Int) :
    vehicle_exit lot log vn now =
      match find_by_vehicle lot (strUpper vn) with
      | none => (ExitResult.notFound, lot, log)
      | some (sid, info) =>
        (ExitResult.receipt sid info.vtype (calculate_fee info.entry_time now info.vtype).2
            (calculate_fee info.entry_time now info.vtype).1,
         setSlot lot sid none,
         log ++ [⟨strUpper vn, info.vtype, sid, info.entry_time, now,
           (calculate_fee info.entry_time now info.vtype).2,
           (calculate_fee info.entry_time now info.vtype).1⟩]) := rfl

lemma LotInv_entry (lot : Lot) (vn vt : String) (vip : Bool) (now : Int)
    (h : LotInv lot) : LotInv (vehicle_entry lot vn vt vip now).2 := by
  obtain ⟨hk, ho, ht⟩ := h
  rw [vehicle_entry_eq]
  split
  · rename_i hvalid
    split
    · exact ⟨hk, ho, ht⟩
    · rename_i hfb
      split
      · rename_i sid aty hfa
        refine ⟨?_, ?_, ?_⟩
        · unfold KeysNodup
          rw [setSlot_map_fst]
          exact hk
        · exact occupants_setSlot_some_nodup lot sid _ hk ho
            ((find_by_vehicle_eq_none lot (strUpper vn)).mp hfb)
        · refine TypesValid_setSlot lot sid _ ht ?_
          intro r hr
          injection hr with hr'
          rw [← hr']
          exact hvalid
      · exact ⟨hk, ho, ht⟩
      · exact ⟨hk, ho, ht⟩
  · exact ⟨hk, ho, ht⟩

lemma LotInv_exit (lot : Lot) (log : List LedgerEntry) (vn : String) (now : Int)
    (h : LotInv lot) : LotInv (vehicle_exit lot log vn now).2.1 := by
  obtain ⟨hk, ho, ht⟩ := h
  rw [vehicle_exit_eq]
  split
  · exact ⟨hk, ho, ht⟩
  · rename_i sid info heq
    refine ⟨?_, ?_, ?_⟩
    · unfold KeysNodup
      rw [setSlot_map_fst]
      exact hk
    · exact List.Nodup.sublist (occupants_setSlot_none_sublist lot sid) ho
    · exact TypesValid_setSlot lot sid none ht (fun r hr => Option.noConfusion hr)

lemma initLot_all_none : ∀ p ∈ initLot, p.2 = none := by decide

lemma LotInv_perm (l : Lot) (hp : l.Perm initLot) : LotInv l := by
  refine ⟨?_, ?_, ?_⟩
  · unfold KeysNodup
    rw [List.Perm.nodup_iff (hp.map Prod.fst)]
    decide
  · have hperm : (occupants l).Perm (occupants initLot) := hp.filterMap _
    rw [List.Perm.nodup_iff hperm]
    decide
  · intro p hpm r hr
    have hnone : p.2 = none := initLot_all_none p (hp.mem_iff.mp hpm)
    rw [hnone] at hr
    exact Option.noConfusion hr

lemma LotInv_reachable (s : Lot × List LedgerEntry) (h : Reachable s) : LotInv s.1 := by
  induction h with
  | init l hp => exact LotInv_perm l hp
  | step s op hr ih =>
    cases op with
    | entry vn vt vip now => exact LotInv_entry s.1 vn vt vip now ih
    | exit vn now => exact LotInv_exit s.1 s.2 vn now ih

/-! ### Orchestration claims -/

/-- C7: a second `vehicle_entry` for a vehicle already holding a reservation
(after case normalization) is rejected as a duplicate — for any vehicle type
requested in the second call — and the registry is returned unchanged. -/
theorem C7_duplicate_rejected (lot : Lot) (vn vt : String) (vip : Bool) (now : Int)
    (sid : String) (r : Reservation)
    (hvalid : strUpper vt = "BIKE" ∨ strUpper vt = "CAR" ∨ strUpper vt = "EV" ∨
      strUpper vt = "HEAVY")
    (hfound : find_by_vehicle lot (strUpper vn) = some (sid, r)) :
    vehicle_entry lot vn vt vip now = (EntryResult.duplicate sid, lot) := by
  rw [vehicle_entry_eq, if_pos hvalid, hfound]

theorem C7_witness :
    vehicle_entry ((vehicle_entry initLot "XY1" "CAR" false 0).2) "XY1" "BIKE" false 5
      = (EntryResult.duplicate "C-01", (vehicle_entry initLot "XY1" "CAR" false 0).2) :=
  C7_duplicate_rejected ((vehicle_entry initLot "XY1" "CAR" false 0).2) "XY1" "BIKE" false 5
    "C-01" ⟨"XY1", "CAR", 0, false⟩ (by decide) (by decide)

/-- C8: a `vehicle_exit` for a vehicle identifier holding no reservation
fails with not-found, and both the ledger and the registry are exactly as
they were before the call. -/
theorem C8_exit_not_found (lot : Lot) (log : List LedgerEntry) (vn : String) (now : Int)
    (h : strUpper vn ∉ occupants lot) :
    vehicle_exit lot log vn now = (ExitResult.notFound, lot, log) := by
  rw [vehicle_exit_eq, (find_by_vehicle_eq_none lot (strUpper vn)).mpr h]

theorem C8_witness :
    vehicle_exit initLot [] "ZZ9" 100 = (ExitResult.notFound, initLot, []) :=
  C8_exit_not_found initLot [] "ZZ9" 100 (by decide)

/-- C9: in every state reachable from the freshly initialized lot by
entry/exit operations, each vehicle identifier appears in at most one
reservation across the whole registry. -/
theorem C9_unique_vehicle (s : Lot × List LedgerEntry) (h : Reachable s) (v : String) :
    (occupants s.1).count v ≤ 1 :=
  List.nodup_iff_count_le_one.mp (LotInv_reachable s h).2.1 v

theorem C9_witness :
    (occupants (applyOp (initLot, []) (Op.entry "AB1" "CAR" false 0)).1).count "AB1" ≤ 1 :=
  C9_unique_vehicle (applyOp (initLot, []) (Op.entry "AB1" "CAR" false 0))
    (Reachable.step (initLot, []) (Op.entry "AB1" "CAR" false 0)
      (Reachable.init initLot (List.Perm.refl _)))
    "AB1"

/-- C10: any successful exit from a reachable state bills with the pricing
tier of the (upper-cased) vehicle type stored at entry, which is always one
of BIKE, CAR, EV, HEAVY — never the VIP pricing tier. -/
theorem C10_vip_tier_never_used (s : Lot × List LedgerEntry) (h : Reachable s)
    (vno : String) (now : Int) (sid ty : String) (hrs fee : Int)
    (hex : (vehicle_exit s.1 s.2 vno now).1 = ExitResult.receipt sid ty hrs fee) :
    (ty = "BIKE" ∨ ty = "CAR" ∨ ty = "EV" ∨ ty = "HEAVY") ∧
    pricingGet ty ≠ pricingGet "VIP" ∧
    ∃ r : Reservation, find_by_vehicle s.1 (strUpper vno) = some (sid, r) ∧ r.vtype = ty ∧
      (fee, hrs) = calculate_fee r.entry_time now ty := by
  have hinv := LotInv_reachable s h
  rw [vehicle_exit_eq] at hex
  rcases hfb : find_by_vehicle s.1 (strUpper vno) with _ | ⟨sid0, info⟩
  · rw [hfb] at hex
    exact absurd hex (by simp)
  · rw [hfb] at hex
    simp only [ExitResult.receipt.injEq] at hex
    obtain ⟨hsid, hty, hhrs, hfee⟩ := hex
    subst hsid
    subst hty
    subst hhrs
    subst hfee
    have hmem := find_by_vehicle_some s.1 (strUpper vno) sid0 info hfb
    have htypes := hinv.2.2 (sid0, some info) hmem.1 info rfl
    refine ⟨htypes, ?_, info, rfl, rfl, rfl⟩
    rcases htypes with h4 | h4 | h4 | h4 <;> rw [h4] <;> decide

theorem C10_witness :
    ("CAR" = "BIKE" ∨ "CAR" = "CAR" ∨ "CAR" = "EV" ∨ "CAR" = "HEAVY") ∧
    pricingGet "CAR" ≠ pricingGet "VIP" ∧
    ∃ r : Reservation,
      find_by_vehicle (applyOp (initLot, []) (Op.entry "AB1" "CAR" false 0)).1 (strUpper "AB1")
        = some ("C-01", r) ∧ r.vtype = "CAR" ∧ ((10 : Int), (1 : Int)) = calculate_fee r.entry_time 3600 "CAR" :=
  C10_vip_tier_never_used (applyOp (initLot, []) (Op.entry "AB1" "CAR" false 0))
    (Reachable.step (initLot, []) (Op.entry "AB1" "CAR" false 0)
      (Reachable.init initLot (List.Perm.refl _)))
    "AB1" 3600 "C-01" "CAR" 1 10 (by decide)
